import Mathlib

/-!
Verification development for the ferros repository.

Part 1 embeds the website animation code (`src/website/src/scripts/debugger-simulation.js`).
Part 2 models the process-control / breakpoint engine described by the
specification; the Rust crate `ferros-core` itself is not present in the
corpus (only its architecture documentation is), so those definitions are
modelled from the specification text, as marked in their doc comments.
-/

namespace Ferros

/-! ## Part 1: website animation code (from debugger-simulation.js) -/

/-- One entry of the `codeLines` array in `initDebuggerSimulation`:
the text of the line and its start delay in milliseconds. -/
structure SimLine where
  text : String
  delay : Nat
  deriving DecidableEq, Repr

/-- The `codeLines` array of `initDebuggerSimulation`
(debugger-simulation.js lines 32-39). -/
def codeLines : List SimLine :=
  [ SimLine.mk "fn main() \x7b" 0,
    SimLine.mk "    let mut vec = Vec::new();" 600,
    SimLine.mk "    vec.push(42);" 900,
    SimLine.mk "    let borrowed = &vec;" 1200,
    SimLine.mk "    println!(\"\x7b:?\x7d\", borrowed);" 1500,
    SimLine.mk "\x7d" 1800 ]

/-- A line as rendered into the code display by `typeNextLine`: whether the
breakpoint indicator span was prepended, and the text node content. -/
structure RenderedLine where
  hasBreakpointIndicator : Bool
  text : String
  deriving DecidableEq, Repr

/-- The mutable state of `initDebuggerSimulation` relevant to `typeNextLine`:
the `currentLine` counter and the sequence of lines in the code display. -/
structure SimState where
  currentLine : Nat
  display : List RenderedLine
  deriving DecidableEq, Repr

/-- One invocation of `typeNextLine` (debugger-simulation.js lines 45-87):
if the counter has reached the list length it is reset to 0 and the display
cleared; then `codeLines[currentLine]` is rendered, with the breakpoint
indicator prepended exactly when `currentLine === 2`; finally the counter is
incremented. -/
def typeNextLine (st : SimState) : SimState :=
  let st1 := if codeLines.length ≤ st.currentLine then SimState.mk 0 [] else st
  let line := codeLines.getD st1.currentLine (SimLine.mk "" 0)
  let rendered := RenderedLine.mk (st1.currentLine == 2) line.text
  SimState.mk (st1.currentLine + 1) (st1.display ++ [rendered])

/-- The 24-hour expiration constant `oneDayInMs` of `shouldShowIntro`
(debugger-simulation.js line 192). -/
def oneDayInMs : Int := 24 * 60 * 60 * 1000

/-- `shouldShowIntro` (debugger-simulation.js lines 190-197): the stored
`ferros_intro_last_shown` value (if any) and the current time are compared;
the intro is shown when no value is stored or strictly more than
`oneDayInMs` milliseconds have elapsed. -/
def shouldShowIntro (lastIntroTime : Option Int) (now : Int) : Bool :=
  match lastIntroTime with
  | none => true
  | some t => decide (now - t > oneDayInMs)

/-- The steps of the gsap timeline built by `initCinematicIntro`
(debugger-simulation.js lines 126-183): one `.set`, eight `.to` tweens, and
the final `.call` that stores the timestamp. -/
inductive IntroStep where
  | setSpark
  | tweenSparkTravel
  | tweenSparkExpand
  | tweenFlashOn
  | tweenFlashOff
  | tweenLogoIn
  | tweenLogoBright
  | tweenLogoCool
  | tweenFadeOut
  | finishCall
  deriving DecidableEq, Repr

/-- The timeline of `initCinematicIntro`, in source order: the storing
`.call` is the last step. -/
def introTimeline : List IntroStep :=
  [ IntroStep.setSpark, IntroStep.tweenSparkTravel, IntroStep.tweenSparkExpand,
    IntroStep.tweenFlashOn, IntroStep.tweenFlashOff, IntroStep.tweenLogoIn,
    IntroStep.tweenLogoBright, IntroStep.tweenLogoCool, IntroStep.tweenFadeOut,
    IntroStep.finishCall ]

/-- Effect of one timeline step on the stored `ferros_intro_last_shown`
value: only the final `.call` writes (`localStorage.setItem(...)`,
debugger-simulation.js line 176); every tween leaves storage unchanged. -/
def runIntroStep (now : Int) (store : Option Int) (s : IntroStep) : Option Int :=
  match s with
  | IntroStep.finishCall => some now
  | _ => store

/-- Running a sequence of timeline steps over the stored value. -/
def runIntroSteps (now : Int) (store : Option Int) (steps : List IntroStep) : Option Int :=
  steps.foldl (runIntroStep now) store

/-! ## Part 2: process-control engine

Modelled from the spec: the `ferros-core` crate (Debugger trait, platform
backends, BreakpointStore, events) is described only by prose in the corpus,
so the engine below is built from the specification's data model (section 3),
component design (section 4), concurrency model (section 5) and error
taxonomy (section 7). -/

/-- Modelled from the spec: the error taxonomy of section 7
(NotAttached, AttachFailed, PermissionDenied, InvalidArgument, Unsupported,
Io — native call failure). -/
inductive DebuggerError where
  | NotAttached
  | AttachFailed
  | PermissionDenied
  | InvalidArgument
  | Unsupported
  | IoErr
  deriving DecidableEq, Repr

/-- Modelled from the spec: the invariant of section 3 — a Process is in
exactly one of Detached, Running, Stopped at any instant. -/
inductive ProcState where
  | Detached
  | Running
  | Stopped
  deriving DecidableEq, Repr

/-- Modelled from the spec: an architecture-specific named register set
(program counter, stack/frame pointer, flags), one instance per thread
per stop. -/
structure Registers where
  pc : Nat
  sp : Nat
  fp : Nat
  flags : Nat
  deriving DecidableEq, Repr

/-- Modelled from the spec: breakpoint kinds — software, hardware,
watchpoint (section 3, BreakpointRequest). -/
inductive BpKind where
  | software
  | hardware
  | watchpoint
  deriving DecidableEq, Repr

/-- Modelled from the spec: one record of the breakpoint table — the
BreakpointId together with (address, original bytes, kind) and the
enable/hit bookkeeping of BreakpointInfo. -/
structure Breakpoint where
  bpId : Nat
  addr : Nat
  kind : BpKind
  savedBytes : List Nat
  enabled : Bool
  hitCount : Nat
  deriving DecidableEq, Repr

/-- Modelled from the spec: the architecture constants the engine needs —
the trap instruction (a short byte sequence of trap-instruction width) and
the fixed, architecture-defined count of debug-register slots. -/
structure Arch where
  trapBytes : List Nat
  hwSlots : Nat
  deriving DecidableEq, Repr

/-- Pointwise update of a byte of target memory. -/
def updByte (m : Nat → Nat) (a v : Nat) : Nat → Nat :=
  fun x => if x = a then v else m x

/-- Modelled from the spec: `read_memory(addr, len)` at the byte level —
the `len` bytes starting at `addr`. -/
def readBytes (m : Nat → Nat) : Nat → Nat → List Nat
  | _, 0 => []
  | a, Nat.succ k => m a :: readBytes m (a + 1) k

/-- Modelled from the spec: `write_memory(addr, bytes)` at the byte level —
the given bytes written consecutively starting at `addr`. -/
def writeBytes : (Nat → Nat) → Nat → List Nat → (Nat → Nat)
  | m, _, [] => m
  | m, a, b :: bs => writeBytes (updByte m a b) (a + 1) bs

/-- Modelled from the spec: the state a Debugger Facade owns for one target
Process — execution state, terminal flag after process exit, target memory,
per-thread registers, the mutex-guarded breakpoint table with monotonically
increasing id allocation, and the active thread selection. -/
structure DState where
  arch : Arch
  procState : ProcState
  terminated : Bool
  mem : Nat → Nat
  regs : Nat → Registers
  bps : List Breakpoint
  nextBpId : Nat
  activeThread : Nat

/-- Modelled from the spec: the guard shared by operations that only need a
live Process — a terminated or detached Process yields NotAttached
(section 7: exit is terminal, all further operations return NotAttached). -/
def attachedGuard (s : DState) : Option DebuggerError :=
  if s.terminated = true then some DebuggerError.NotAttached
  else if s.procState = ProcState.Detached then some DebuggerError.NotAttached
  else none

/-- Modelled from the spec: the guard shared by mutating operations — they
require a live, Stopped Process; a caller attempting one while Running
receives an explicit error rather than having the operation queued
(section 5). -/
def stoppedGuard (s : DState) : Option DebuggerError :=
  if s.terminated = true then some DebuggerError.NotAttached
  else if s.procState = ProcState.Detached then some DebuggerError.NotAttached
  else if s.procState = ProcState.Stopped then none
  else some DebuggerError.InvalidArgument

/-- Modelled from the spec: `launch(path, args)` spawns the target suspended
so no instructions execute before breakpoints are installed; a successful
launch always leaves the Process Stopped (section 4.1). The `spawnOk` flag
models whether the native spawn call succeeded. -/
def launch (arch : Arch) (path : String) (args : List String)
    (mem0 : Nat → Nat) (regs0 : Nat → Registers) (spawnOk : Bool) :
    Except DebuggerError DState :=
  if spawnOk then
    Except.ok (DState.mk arch ProcState.Stopped false mem0 regs0 [] 0 0)
  else Except.error DebuggerError.IoErr

/-- Modelled from the spec: `attach(pid)` takes control of an already
running process, stopping it as a side effect; attaching to a pid that is
already traced fails with AttachFailed (sections 4.1 and 5). -/
def attach (arch : Arch) (pid : Nat) (alreadyTraced : Bool)
    (mem0 : Nat → Nat) (regs0 : Nat → Registers) :
    Except DebuggerError DState :=
  if alreadyTraced then Except.error DebuggerError.AttachFailed
  else Except.ok (DState.mk arch ProcState.Stopped false mem0 regs0 [] 0 0)

/-- Modelled from the spec: `detach()` releases control without terminating
the target. -/
def detach (s : DState) : Except DebuggerError DState :=
  match attachedGuard s with
  | some e => Except.error e
  | none => Except.ok { s with procState := ProcState.Detached }

/-- Modelled from the spec: `suspend()` toggles Running to Stopped
(section 4.1). -/
def suspend (s : DState) : Except DebuggerError DState :=
  match attachedGuard s with
  | some e => Except.error e
  | none =>
    if s.procState = ProcState.Running then
      Except.ok { s with procState := ProcState.Stopped }
    else Except.error DebuggerError.InvalidArgument

/-- Modelled from the spec: `resume()` toggles Stopped to Running; like all
control operations it is forbidden unless the Process is Stopped. -/
def resume (s : DState) : Except DebuggerError DState :=
  match stoppedGuard s with
  | some e => Except.error e
  | none => Except.ok { s with procState := ProcState.Running }

/-- Modelled from the spec: `single_step()` executes one instruction of the
active thread and stops again; the model advances the program counter by
one model instruction. -/
def single_step (s : DState) : Except DebuggerError DState :=
  match stoppedGuard s with
  | some e => Except.error e
  | none =>
    Except.ok { s with regs := (fun t =>
      if t = s.activeThread then
        ({ s.regs t with pc := (s.regs t).pc + 1 })
      else s.regs t) }

/-- Modelled from the spec: `read_registers(thread)` — reads of Registers
are only well-defined while Stopped (section 3 invariant). -/
def read_registers (s : DState) (t : Nat) : Except DebuggerError Registers :=
  match stoppedGuard s with
  | some e => Except.error e
  | none => Except.ok (s.regs t)

/-- Modelled from the spec: `write_registers(thread, values)` replaces the
thread's register values; requires Stopped. -/
def write_registers (s : DState) (t : Nat) (v : Registers) :
    Except DebuggerError DState :=
  match stoppedGuard s with
  | some e => Except.error e
  | none =>
    Except.ok { s with regs := fun u => if u = t then v else s.regs u }

/-- Modelled from the spec: `read_memory(addr, len)`; requires Stopped. -/
def read_memory (s : DState) (a len : Nat) : Except DebuggerError (List Nat) :=
  match stoppedGuard s with
  | some e => Except.error e
  | none => Except.ok (readBytes s.mem a len)

/-- Modelled from the spec: `write_memory(addr, bytes)`; requires Stopped. -/
def write_memory (s : DState) (a : Nat) (bs : List Nat) :
    Except DebuggerError DState :=
  match stoppedGuard s with
  | some e => Except.error e
  | none => Except.ok { s with mem := writeBytes s.mem a bs }

/-- Modelled from the spec: `set_active_thread(id)` selects the thread later
inspection operations refer to. -/
def set_active_thread (s : DState) (t : Nat) : Except DebuggerError DState :=
  match attachedGuard s with
  | some e => Except.error e
  | none => Except.ok { s with activeThread := t }

/-- Lookup in the address-keyed breakpoint table. -/
def findBpAt (bps : List Breakpoint) (a : Nat) : Option Breakpoint :=
  bps.find? fun b => b.addr == a

/-- Lookup by breakpoint id. -/
def findBpById (bps : List Breakpoint) (i : Nat) : Option Breakpoint :=
  bps.find? fun b => b.bpId == i

/-- Number of occupied debug-register slots: every non-software breakpoint
(hardware breakpoint or watchpoint) occupies one. -/
def hwCount (bps : List Breakpoint) : Nat :=
  (bps.filter fun b => !(b.kind == BpKind.software)).length

/-- Modelled from the spec: `add_breakpoint(request) -> id` (sections 4.2
and 6). Re-adding at an address that already has a breakpoint returns the
existing id idempotently rather than installing twice. A software install
reads and saves the original bytes at the target address (length =
architecture trap-instruction width), writes the trap instruction, and
records the id-to-(address, original bytes, kind) mapping under a fresh,
monotonically increasing id. Hardware breakpoints and watchpoints occupy
debug-register slots; requesting more than the available slot count is an
InvalidArgument-class error, not silently dropped. -/
def add_breakpoint (s : DState) (k : BpKind) (a : Nat) :
    Except DebuggerError (Nat × DState) :=
  match stoppedGuard s with
  | some e => Except.error e
  | none =>
    match findBpAt s.bps a with
    | some b => Except.ok (b.bpId, s)
    | none =>
      match k with
      | BpKind.software =>
        let saved := readBytes s.mem a s.arch.trapBytes.length
        let bp := Breakpoint.mk s.nextBpId a k saved true 0
        Except.ok (s.nextBpId,
          { s with mem := writeBytes s.mem a s.arch.trapBytes,
                   bps := bp :: s.bps,
                   nextBpId := s.nextBpId + 1 })
      | _ =>
        if s.arch.hwSlots ≤ hwCount s.bps then
          Except.error DebuggerError.InvalidArgument
        else
          let bp := Breakpoint.mk s.nextBpId a k [] true 0
          Except.ok (s.nextBpId,
            { s with bps := bp :: s.bps, nextBpId := s.nextBpId + 1 })

/-- Modelled from the spec: `remove_breakpoint(id)` (sections 4.2 and 6).
Removing a non-existent id is a no-op error, not fatal; removing an
installed software breakpoint restores the saved original bytes at its
address before deleting the table entry. -/
def remove_breakpoint (s : DState) (i : Nat) : Except DebuggerError DState :=
  match stoppedGuard s with
  | some e => Except.error e
  | none =>
    match findBpById s.bps i with
    | none => Except.error DebuggerError.InvalidArgument
    | some b =>
      let mem2 :=
        match b.kind with
        | BpKind.software => writeBytes s.mem b.addr b.savedBytes
        | _ => s.mem
      Except.ok { s with mem := mem2,
                         bps := s.bps.filter fun x => !(x.bpId == i) }

/-- Modelled from the spec: `enable_breakpoint(id)` / `disable_breakpoint(id)`
toggle the enabled flag of an existing table entry. -/
def set_breakpoint_enabled (s : DState) (i : Nat) (en : Bool) :
    Except DebuggerError DState :=
  match stoppedGuard s with
  | some e => Except.error e
  | none =>
    match findBpById s.bps i with
    | none => Except.error DebuggerError.InvalidArgument
    | some _ =>
      Except.ok { s with bps := s.bps.map fun b =>
        if b.bpId = i then { b with enabled := en } else b }

/-- Modelled from the spec: process exit or termination is terminal for the
Process value (section 7); the wait loop marks the handle dead when it
observes the exit. -/
def mark_exited (s : DState) : DState :=
  { s with procState := ProcState.Detached, terminated := true }

/-- Modelled from the spec: the operations a caller can invoke against an
owned Process through the Debugger Facade (section 6), other than the
lifecycle constructors launch and attach. -/
inductive Op where
  | opSuspend
  | opResume
  | opSingleStep
  | opDetach
  | opReadRegisters (t : Nat)
  | opWriteRegisters (t : Nat) (v : Registers)
  | opReadMemory (a len : Nat)
  | opWriteMemory (a : Nat) (bs : List Nat)
  | opAddBreakpoint (k : BpKind) (a : Nat)
  | opRemoveBreakpoint (i : Nat)
  | opEnableBreakpoint (i : Nat)
  | opDisableBreakpoint (i : Nat)
  | opSetActiveThread (t : Nat)

/-- Modelled from the spec: dispatch of one Facade operation against the
owned Process, forgetting any inspection result and keeping the resulting
state. -/
def step (op : Op) (s : DState) : Except DebuggerError DState :=
  match op with
  | Op.opSuspend => suspend s
  | Op.opResume => resume s
  | Op.opSingleStep => single_step s
  | Op.opDetach => detach s
  | Op.opReadRegisters t =>
    match read_registers s t with
    | Except.ok _ => Except.ok s
    | Except.error e => Except.error e
  | Op.opWriteRegisters t v => write_registers s t v
  | Op.opReadMemory a len =>
    match read_memory s a len with
    | Except.ok _ => Except.ok s
    | Except.error e => Except.error e
  | Op.opWriteMemory a bs => write_memory s a bs
  | Op.opAddBreakpoint k a =>
    match add_breakpoint s k a with
    | Except.ok r => Except.ok r.2
    | Except.error e => Except.error e
  | Op.opRemoveBreakpoint i => remove_breakpoint s i
  | Op.opEnableBreakpoint i => set_breakpoint_enabled s i true
  | Op.opDisableBreakpoint i => set_breakpoint_enabled s i false
  | Op.opSetActiveThread t => set_active_thread s t

/-- Modelled from the spec: the operations that mutate the target process
(register/memory writes, breakpoint table changes, execution-state
changes) — section 5's "control operations" minus suspend, which is the
request that produces the stop, and minus reads and the debugger-local
active-thread selection. -/
def isMutating : Op → Bool
  | Op.opSuspend => false
  | Op.opResume => true
  | Op.opSingleStep => true
  | Op.opDetach => false
  | Op.opReadRegisters _ => false
  | Op.opWriteRegisters _ _ => true
  | Op.opReadMemory _ _ => false
  | Op.opWriteMemory _ _ => true
  | Op.opAddBreakpoint _ _ => true
  | Op.opRemoveBreakpoint _ => true
  | Op.opEnableBreakpoint _ => true
  | Op.opDisableBreakpoint _ => true
  | Op.opSetActiveThread _ => false

/-! ### Event channel (section 4.5), modelled from the spec -/

/-- Modelled from the spec: the access kind of a watchpoint hit. -/
inductive AccessKind where
  | readAccess
  | writeAccess
  | executeAccess
  deriving DecidableEq, Repr

/-- Modelled from the spec: the StopReason tagged variant of section 3. -/
inductive StopReason where
  | breakpointHit (bpId : Nat)
  | watchpointHit (bpId : Nat) (access : AccessKind)
  | signalOrException (num : Nat) (thread : Nat)
  | singleStepComplete
  | processExited (code : Nat)
  | processTerminated (sig : Nat)
  deriving DecidableEq, Repr

/-- Modelled from the spec: the two published event types of the event
system — TargetStopped with reason and thread, and TargetResumed. -/
inductive Event where
  | TargetStopped (reason : StopReason) (thread : Nat)
  | TargetResumed
  deriving DecidableEq, Repr

/-- Modelled from the spec: what the dedicated wait loop observes for one
Process — a native stop notification it classifies into a StopReason, or a
resume command issued by the Facade while the Process is Stopped. -/
inductive WaitAction where
  | osStop (reason : StopReason) (thread : Nat)
  | cmdResume
  deriving DecidableEq, Repr

/-- Modelled from the spec: the wait loop's view of one Process — whether
the target is currently running and the events published so far, in
publication order. -/
structure ChannelState where
  running : Bool
  published : List Event
  deriving DecidableEq, Repr

/-- Modelled from the spec: one iteration of the blocking wait loop
(section 4.5). Each observed OS-level stop is classified and published as
one TargetStopped event; a resume command is rejected while the target is
already Running (section 5) and otherwise publishes TargetResumed and sets
the target running. -/
def waitLoopStep (st : ChannelState) (act : WaitAction) : ChannelState :=
  match act with
  | WaitAction.osStop r t =>
    ChannelState.mk false (st.published ++ [Event.TargetStopped r t])
  | WaitAction.cmdResume =>
    if st.running then st
    else ChannelState.mk true (st.published ++ [Event.TargetResumed])

/-- Modelled from the spec: the wait loop processing a sequence of observed
actions. -/
def waitLoopRun (st : ChannelState) (acts : List WaitAction) : ChannelState :=
  acts.foldl waitLoopStep st

/-- Modelled from the spec: the channel state right after a resume of a
freshly launched or attached target — the target is running and nothing has
been published yet. -/
def initChannel : ChannelState := ChannelState.mk true []

/-- Recognizer for TargetStopped events. -/
def isStopEvent : Event → Bool
  | Event.TargetStopped _ _ => true
  | Event.TargetResumed => false

/-- Number of TargetStopped events in a published sequence. -/
def countStops (evs : List Event) : Nat :=
  (evs.filter isStopEvent).length

/-- Number of TargetResumed events in a published sequence. -/
def countResumes (evs : List Event) : Nat :=
  (evs.filter fun e => !isStopEvent e).length

/-- Recognizer for OS-level stop observations. -/
def isOsStop : WaitAction → Bool
  | WaitAction.osStop _ _ => true
  | WaitAction.cmdResume => false

/-- Number of distinct OS-level stops in an observed action sequence. -/
def countOsStops (acts : List WaitAction) : Nat :=
  (acts.filter isOsStop).length

/-- The per-process ordering invariant maintained by the wait loop: while
the target runs, resumes and stops published so far balance; while it is
stopped, one more stop than resume has been published; and every published
prefix shows at least as many TargetStopped as TargetResumed events. -/
def chanInv (st : ChannelState) : Prop :=
  (st.running = true →
    countResumes st.published ≤ countStops st.published) ∧
  (st.running = false →
    countResumes st.published < countStops st.published) ∧
  ∀ n, countResumes (st.published.take n) ≤ countStops (st.published.take n)

/-! ### Breakpoint bookkeeping helpers used by the counting claim -/

/-- The addresses currently present in a breakpoint table. -/
def addrOfBps (bps : List Breakpoint) : List Nat :=
  bps.map fun b => b.addr

/-- A sequence of software add_breakpoint requests folded over the engine
state; a failing add (impossible from a live Stopped state) leaves the
state unchanged. -/
def addAllSoftware (s : DState) (addrs : List Nat) : DState :=
  addrs.foldl
    (fun st a =>
      match add_breakpoint st BpKind.software a with
      | Except.ok r => r.2
      | Except.error _ => st)
    s

/-! ### Concrete sample states used by the witness theorems -/

/-- A sample architecture: one-byte trap instruction 0xCC and four
debug-register slots. -/
def arch0 : Arch := Arch.mk [204] 4

/-- Sample zeroed registers. -/
def regs0 : Registers := Registers.mk 0 0 0 0

/-- A freshly launched sample target: Stopped, zeroed memory and registers,
empty breakpoint table. -/
def state0 : DState :=
  DState.mk arch0 ProcState.Stopped false (fun _ => 0) (fun _ => regs0) [] 0 0

/-- The sample target while Running. -/
def runningState : DState := { state0 with procState := ProcState.Running }

/-- The sample target right after add_breakpoint installed a software
breakpoint at address 100: memory carries the trap byte, the table records
id 0 with the saved original byte. -/
def state1 : DState :=
  { state0 with
      mem := writeBytes state0.mem 100 arch0.trapBytes,
      bps := [Breakpoint.mk 0 100 BpKind.software [0] true 0],
      nextBpId := 1 }

/-- The sample target after the breakpoint was removed again: original byte
restored, table empty. -/
def state2 : DState :=
  { state1 with mem := writeBytes state1.mem 100 [0], bps := [] }

/-- A sample target whose four debug-register slots are all occupied by
hardware breakpoints. -/
def hwFullState : DState :=
  { state0 with
      bps := [Breakpoint.mk 0 1 BpKind.hardware [] true 0,
              Breakpoint.mk 1 2 BpKind.hardware [] true 0,
              Breakpoint.mk 2 3 BpKind.watchpoint [] true 0,
              Breakpoint.mk 3 4 BpKind.watchpoint [] true 0],
      nextBpId := 4 }

/-- Sample register values with program counter 7. -/
def regsV : Registers := Registers.mk 7 8 9 10

/-- The sample target after write_registers wrote `regsV` to thread 3. -/
def state6 : DState :=
  { state0 with regs := fun u => if u = 3 then regsV else state0.regs u }

/-- The state a successful sample launch produces. -/
def launchedState : DState :=
  DState.mk arch0 ProcState.Stopped false (fun _ => 0) (fun _ => regs0) [] 0 0

/-! ## Helper lemmas -/

theorem writeBytes_lt (bs : List Nat) :
    ∀ (m : Nat → Nat) (a x : Nat), x < a → writeBytes m a bs x = m x := by
  induction bs with
  | nil => intro m a x _; rfl
  | cons b bs ih =>
    intro m a x h
    show writeBytes (updByte m a b) (a + 1) bs x = m x
    rw [ih (updByte m a b) (a + 1) x (by omega)]
    simp only [updByte]
    rw [if_neg (Nat.ne_of_lt h)]

theorem writeBytes_readBytes (k : Nat) :
    ∀ (m m2 : Nat → Nat) (a i : Nat), i < k →
      writeBytes m2 a (readBytes m a k) (a + i) = m (a + i) := by
  induction k with
  | zero => intro m m2 a i h; omega
  | succ k ih =>
    intro m m2 a i h
    show writeBytes (updByte m2 a (m a)) (a + 1) (readBytes m (a + 1) k) (a + i)
        = m (a + i)
    cases i with
    | zero =>
      rw [writeBytes_lt (readBytes m (a + 1) k) (updByte m2 a (m a)) (a + 1)
            (a + 0) (by omega)]
      simp [updByte]
    | succ j =>
      have h1 : a + (j + 1) = (a + 1) + j := by omega
      rw [h1, ih m (updByte m2 a (m a)) (a + 1) j (by omega)]

theorem stoppedGuard_eq_none {s : DState} (h : stoppedGuard s = none) :
    s.terminated = false ∧ s.procState = ProcState.Stopped := by
  unfold stoppedGuard at h
  split_ifs at h with h1 h2 h3
  all_goals simp_all

theorem stoppedGuard_none_of {s : DState} (ht : s.terminated = false)
    (hst : s.procState = ProcState.Stopped) : stoppedGuard s = none := by
  simp [stoppedGuard, ht, hst]

theorem stoppedGuard_running {s : DState} (h : s.procState = ProcState.Running) :
    ∃ e, stoppedGuard s = some e := by
  unfold stoppedGuard
  split_ifs with h1 h2 h3
  · exact ⟨_, rfl⟩
  · exact ⟨_, rfl⟩
  · rw [h] at h3; simp at h3
  · exact ⟨_, rfl⟩

theorem stoppedGuard_terminated {s : DState} (h : s.terminated = true) :
    stoppedGuard s = some DebuggerError.NotAttached := by
  simp [stoppedGuard, h]

theorem attachedGuard_terminated {s : DState} (h : s.terminated = true) :
    attachedGuard s = some DebuggerError.NotAttached := by
  simp [attachedGuard, h]

theorem getLast_snoc {α : Type} (l : List α) (x : α) :
    (l ++ [x]).getLast? = some x := by
  rw [List.getLast?_append_of_ne_nil l (by simp : ([x] : List α) ≠ [])]
  rfl

theorem findBpAt_none {bps : List Breakpoint} {a : Nat} :
    findBpAt bps a = none ↔ ∀ b ∈ bps, b.addr ≠ a := by
  simp [findBpAt, List.find?_eq_none]

theorem add_sw_effect (s : DState) (a : Nat)
    (hst : s.procState = ProcState.Stopped) (ht : s.terminated = false) :
    ∃ r, add_breakpoint s BpKind.software a = Except.ok r ∧
      r.2.procState = ProcState.Stopped ∧ r.2.terminated = false ∧
      addrOfBps r.2.bps =
        (if a ∈ addrOfBps s.bps then addrOfBps s.bps
         else a :: addrOfBps s.bps) := by
  have hg := stoppedGuard_none_of ht hst
  cases hf : findBpAt s.bps a with
  | some b =>
    have hf2 : List.find? (fun x => x.addr == a) s.bps = some b := hf
    have hmem : a ∈ addrOfBps s.bps := by
      have hpb := List.find?_some hf2
      have hmemb := List.mem_of_find?_eq_some hf2
      have hba : b.addr = a := by simpa using hpb
      exact List.mem_map.mpr ⟨b, hmemb, hba⟩
    refine ⟨(b.bpId, s), ?_, hst, ht, ?_⟩
    · simp [add_breakpoint, hg, hf]
    · rw [if_pos hmem]
  | none =>
    have hnmem : a ∉ addrOfBps s.bps := by
      intro hmem
      obtain ⟨b, hb, hba⟩ := List.mem_map.mp hmem
      exact (findBpAt_none.mp hf) b hb hba
    refine ⟨(s.nextBpId,
      { s with
          mem := writeBytes s.mem a s.arch.trapBytes,
          bps := Breakpoint.mk s.nextBpId a BpKind.software
            (readBytes s.mem a s.arch.trapBytes.length) true 0 :: s.bps,
          nextBpId := s.nextBpId + 1 }), ?_, hst, ht, ?_⟩
    · simp [add_breakpoint, hg, hf]
    · rw [if_neg hnmem]
      simp [addrOfBps]

theorem addAll_effect (addrs : List Nat) :
    ∀ s : DState, s.procState = ProcState.Stopped → s.terminated = false →
      (addAllSoftware s addrs).procState = ProcState.Stopped ∧
      (addAllSoftware s addrs).terminated = false ∧
      (addrOfBps (addAllSoftware s addrs).bps).toFinset
        = (addrOfBps s.bps).toFinset ∪ addrs.toFinset ∧
      ((addrOfBps s.bps).Nodup →
        (addrOfBps (addAllSoftware s addrs).bps).Nodup) := by
  induction addrs with
  | nil =>
    intro s hst ht
    exact ⟨hst, ht, by simp [addAllSoftware], fun h => h⟩
  | cons a rest ih =>
    intro s hst ht
    obtain ⟨r, hr, h1, h2, h3⟩ := add_sw_effect s a hst ht
    have hfold : addAllSoftware s (a :: rest) = addAllSoftware r.2 rest := by
      simp [addAllSoftware, hr]
    rw [hfold]
    obtain ⟨p1, p2, p3, p4⟩ := ih r.2 h1 h2
    refine ⟨p1, p2, ?_, ?_⟩
    · rw [p3, h3]
      by_cases hmem : a ∈ addrOfBps s.bps
      · rw [if_pos hmem, List.toFinset_cons]
        ext x
        simp only [Finset.mem_union, Finset.mem_insert, List.mem_toFinset]
        constructor
        · rintro (hx | hx)
          · exact Or.inl hx
          · exact Or.inr (Or.inr hx)
        · rintro (hx | rfl | hx)
          · exact Or.inl hx
          · exact Or.inl hmem
          · exact Or.inr hx
      · rw [if_neg hmem, List.toFinset_cons, List.toFinset_cons]
        ext x
        simp only [Finset.mem_union, Finset.mem_insert]
        tauto
    · intro hnd
      apply p4
      rw [h3]
      by_cases hmem : a ∈ addrOfBps s.bps
      · rw [if_pos hmem]; exact hnd
      · rw [if_neg hmem]; exact List.nodup_cons.mpr ⟨hmem, hnd⟩

theorem take_snoc {α : Type} (l : List α) (x : α) (n : Nat) :
    (l ++ [x]).take n = l.take n ∨ (l ++ [x]).take n = l ++ [x] := by
  by_cases h : n ≤ l.length
  · left
    rw [List.take_append_eq_append_take]
    have h0 : n - l.length = 0 := by omega
    rw [h0]
    simp
  · right
    have h1 : l.length ≤ n := by omega
    rw [List.take_append_eq_append_take, List.take_of_length_le h1]
    have h2 : n - l.length = (n - l.length - 1) + 1 := by omega
    rw [h2]
    simp

theorem chanInv_step (st : ChannelState) (act : WaitAction)
    (h : chanInv st) : chanInv (waitLoopStep st act) := by
  obtain ⟨h1, h2, h3⟩ := h
  cases act with
  | osStop r t =>
    have hRS : countResumes st.published ≤ countStops st.published := by
      cases hr : st.running
      · exact Nat.le_of_lt (h2 hr)
      · exact h1 hr
    have hc : countStops (st.published ++ [Event.TargetStopped r t])
        = countStops st.published + 1 := by
      simp [countStops, isStopEvent]
    have hc2 : countResumes (st.published ++ [Event.TargetStopped r t])
        = countResumes st.published := by
      simp [countResumes, isStopEvent]
    refine ⟨?_, ?_, ?_⟩
    · intro hrun
      exact absurd hrun (by simp [waitLoopStep])
    · intro _
      show countResumes (st.published ++ [Event.TargetStopped r t])
          < countStops (st.published ++ [Event.TargetStopped r t])
      rw [hc, hc2]
      omega
    · intro n
      show countResumes ((st.published ++ [Event.TargetStopped r t]).take n)
          ≤ countStops ((st.published ++ [Event.TargetStopped r t]).take n)
      rcases take_snoc st.published (Event.TargetStopped r t) n with hta | hta
      · rw [hta]; exact h3 n
      · rw [hta, hc, hc2]; omega
  | cmdResume =>
    by_cases hr : st.running = true
    · have heq : waitLoopStep st WaitAction.cmdResume = st := by
        simp [waitLoopStep, hr]
      rw [heq]
      exact ⟨h1, h2, h3⟩
    · have hrf : st.running = false := by
        revert hr; cases st.running <;> simp
      have hlt := h2 hrf
      have heq : waitLoopStep st WaitAction.cmdResume
          = ChannelState.mk true (st.published ++ [Event.TargetResumed]) := by
        simp [waitLoopStep, hrf]
      rw [heq]
      have hc : countStops (st.published ++ [Event.TargetResumed])
          = countStops st.published := by
        simp [countStops, isStopEvent]
      have hc2 : countResumes (st.published ++ [Event.TargetResumed])
          = countResumes st.published + 1 := by
        simp [countResumes, isStopEvent]
      refine ⟨?_, ?_, ?_⟩
      · intro _
        show countResumes (st.published ++ [Event.TargetResumed])
            ≤ countStops (st.published ++ [Event.TargetResumed])
        rw [hc, hc2]
        omega
      · intro hfalse
        simp at hfalse
      · intro n
        show countResumes ((st.published ++ [Event.TargetResumed]).take n)
            ≤ countStops ((st.published ++ [Event.TargetResumed]).take n)
        rcases take_snoc st.published Event.TargetResumed n with hta | hta
        · rw [hta]; exact h3 n
        · rw [hta, hc, hc2]; omega

theorem chanInv_run (acts : List WaitAction) :
    ∀ st : ChannelState, chanInv st → chanInv (waitLoopRun st acts) := by
  induction acts with
  | nil => intro st h; exact h
  | cons a rest ih =>
    intro st h
    exact ih (waitLoopStep st a) (chanInv_step st a h)

theorem countStops_run (acts : List WaitAction) :
    ∀ st : ChannelState,
      countStops (waitLoopRun st acts).published
        = countStops st.published + countOsStops acts := by
  induction acts with
  | nil => intro st; simp [waitLoopRun, countOsStops]
  | cons a rest ih =>
    intro st
    have hfold : waitLoopRun st (a :: rest)
        = waitLoopRun (waitLoopStep st a) rest := rfl
    rw [hfold, ih]
    cases a with
    | osStop r t =>
      simp [waitLoopStep, countStops, countOsStops, isOsStop, isStopEvent,
        List.filter_append]
      omega
    | cmdResume =>
      by_cases hr : st.running = true
      · simp [waitLoopStep, hr, countOsStops, isOsStop]
      · have hrf : st.running = false := by
          revert hr; cases st.running <;> simp
        simp [waitLoopStep, hrf, countStops, countOsStops, isOsStop,
          isStopEvent, List.filter_append]

/-! ## Claim theorems -/

/-- C1: for every software breakpoint installed at an address A (original
bytes of trap-instruction width read, saved, and replaced by the trap
instruction) and then removed without ever having been hit, the bytes in
target memory at A after removal equal the bytes that were there before
installation (round-trip). -/
theorem software_breakpoint_roundtrip (s : DState) (a i bid : Nat)
    (s1 s2 : DState)
    (hfresh : findBpAt s.bps a = none)
    (hadd : add_breakpoint s BpKind.software a = Except.ok (bid, s1))
    (hrem : remove_breakpoint s1 bid = Except.ok s2)
    (hi : i < s.arch.trapBytes.length) :
    s2.mem (a + i) = s.mem (a + i) := by
  cases hg : stoppedGuard s with
  | some e => simp [add_breakpoint, hg] at hadd
  | none =>
    obtain ⟨ht, hst⟩ := stoppedGuard_eq_none hg
    simp [add_breakpoint, hg, hfresh] at hadd
    obtain ⟨hb, hs1⟩ := hadd
    subst hb
    subst hs1
    simp [remove_breakpoint, stoppedGuard, ht, hst, findBpById,
      List.find?] at hrem
    subst hrem
    exact writeBytes_readBytes s.arch.trapBytes.length s.mem
      (writeBytes s.mem a s.arch.trapBytes) a i hi

/-- Witness for C1: the concrete sample install/remove at address 100
restores the original byte. -/
theorem software_breakpoint_roundtrip_witness :
    state2.mem (100 + 0) = state0.mem (100 + 0) :=
  software_breakpoint_roundtrip state0 100 0 0 state1 state2 rfl rfl rfl
    (by decide)

/-- C2: a Process is in exactly one of the three states Detached, Running,
Stopped; every mutating operation has Stopped as a precondition, and a
caller attempting a mutating operation while the process is Running
receives an explicit error rather than having the operation queued. -/
theorem mutating_requires_stopped (op : Op) (s : DState)
    (hm : isMutating op = true) :
    ((s.procState = ProcState.Detached ∧ s.procState ≠ ProcState.Running ∧
        s.procState ≠ ProcState.Stopped) ∨
     (s.procState = ProcState.Running ∧ s.procState ≠ ProcState.Detached ∧
        s.procState ≠ ProcState.Stopped) ∨
     (s.procState = ProcState.Stopped ∧ s.procState ≠ ProcState.Detached ∧
        s.procState ≠ ProcState.Running)) ∧
    (s.procState = ProcState.Running → ∃ e, step op s = Except.error e) ∧
    (∀ s2, step op s = Except.ok s2 → s.procState = ProcState.Stopped) := by
  cases op <;>
  first
    | (simp [isMutating] at hm
       done)
    | (refine ⟨?_, ?_, ?_⟩
       · cases hps : s.procState <;> simp [hps]
       · intro hr
         obtain ⟨e, hg⟩ := stoppedGuard_running hr
         exact ⟨e, by simp [step, resume, single_step, write_registers,
           write_memory, add_breakpoint, remove_breakpoint,
           set_breakpoint_enabled, hg]⟩
       · intro s2 hok
         cases hg : stoppedGuard s with
         | some e =>
           simp [step, resume, single_step, write_registers, write_memory,
             add_breakpoint, remove_breakpoint, set_breakpoint_enabled,
             hg] at hok
         | none => exact (stoppedGuard_eq_none hg).2)

/-- Witness for C2: a write_memory request against the Running sample
target is answered with an explicit error. -/
theorem mutating_requires_stopped_witness :
    ∃ e, step (Op.opWriteMemory 100 [1]) runningState = Except.error e :=
  (mutating_requires_stopped (Op.opWriteMemory 100 [1]) runningState
    rfl).2.1 rfl

/-- C4: every successful launch(path, args) and every successful
attach(pid) leaves the resulting Process in the Stopped state; launch
spawns the target suspended, so no target instruction executes before
breakpoints can be installed. -/
theorem launch_attach_leave_stopped :
    (∀ (arch : Arch) (path : String) (args : List String)
        (mem0 : Nat → Nat) (regs1 : Nat → Registers) (spawnOk : Bool)
        (s2 : DState),
        launch arch path args mem0 regs1 spawnOk = Except.ok s2 →
          s2.procState = ProcState.Stopped) ∧
    (∀ (arch : Arch) (pid : Nat) (alreadyTraced : Bool)
        (mem0 : Nat → Nat) (regs1 : Nat → Registers) (s2 : DState),
        attach arch pid alreadyTraced mem0 regs1 = Except.ok s2 →
          s2.procState = ProcState.Stopped) := by
  constructor
  · intro arch path args mem0 regs1 spawnOk s2 h
    cases spawnOk with
    | true =>
      simp [launch] at h
      subst h
      rfl
    | false => simp [launch] at h
  · intro arch pid alreadyTraced mem0 regs1 s2 h
    cases alreadyTraced with
    | true => simp [attach] at h
    | false =>
      simp [attach] at h
      subst h
      rfl

/-- Witness for C4: the concrete sample launch leaves the target Stopped. -/
theorem launch_attach_leave_stopped_witness :
    launchedState.procState = ProcState.Stopped :=
  launch_attach_leave_stopped.1 arch0 "target" [] (fun _ => 0)
    (fun _ => regs0) true launchedState rfl

/-- C5: after the target process has exited or been terminated, that
Process value is terminal: every further operation invoked against it
returns the NotAttached error. -/
theorem exited_process_operations_not_attached (op : Op) (s : DState) :
    step op (mark_exited s) = Except.error DebuggerError.NotAttached := by
  have ht : (mark_exited s).terminated = true := rfl
  cases op <;>
    simp [step, suspend, resume, single_step, detach, read_registers,
      write_registers, read_memory, write_memory, add_breakpoint,
      remove_breakpoint, set_breakpoint_enabled, set_active_thread,
      stoppedGuard_terminated ht, attachedGuard_terminated ht]

/-- C6: after write_registers(t, v) succeeds while the process is Stopped,
a subsequent read_registers(t) returns exactly the written register values,
in particular the written program counter. -/
theorem write_registers_then_read (s : DState) (t : Nat) (v : Registers)
    (s1 : DState) (hw : write_registers s t v = Except.ok s1) :
    ∃ r, read_registers s1 t = Except.ok r ∧ r.pc = v.pc ∧ r = v := by
  cases hg : stoppedGuard s with
  | some e => simp [write_registers, hg] at hw
  | none =>
    obtain ⟨ht, hst⟩ := stoppedGuard_eq_none hg
    simp [write_registers, hg] at hw
    subst hw
    refine ⟨v, ?_, rfl, rfl⟩
    simp [read_registers, stoppedGuard, ht, hst]

/-- Witness for C6: writing pc=7 to thread 3 of the sample target and
reading it back returns pc=7. -/
theorem write_registers_then_read_witness :
    ∃ r, read_registers state6 3 = Except.ok r ∧ r.pc = regsV.pc ∧
      r = regsV :=
  write_registers_then_read state0 3 regsV state6 rfl

/-- C7: hardware breakpoints and watchpoints occupy a fixed,
architecture-defined number of debug-register slots; with every slot
occupied the next request fails with an InvalidArgument-class error, and a
request with a free slot is recorded rather than silently dropped or
truncated. -/
theorem hw_slots_exhausted (s : DState) (k : BpKind) (a : Nat)
    (hst : s.procState = ProcState.Stopped) (ht : s.terminated = false)
    (hk : k = BpKind.hardware ∨ k = BpKind.watchpoint)
    (hfresh : findBpAt s.bps a = none) :
    (s.arch.hwSlots ≤ hwCount s.bps →
      add_breakpoint s k a = Except.error DebuggerError.InvalidArgument) ∧
    (hwCount s.bps < s.arch.hwSlots →
      ∃ s2, add_breakpoint s k a = Except.ok (s.nextBpId, s2) ∧
        s2.bps.length = s.bps.length + 1) := by
  have hg : stoppedGuard s = none := stoppedGuard_none_of ht hst
  constructor
  · intro hfull
    rcases hk with rfl | rfl <;> simp [add_breakpoint, hg, hfresh, hfull]
  · intro hroom
    rcases hk with rfl | rfl
    · refine ⟨{ s with
          bps := Breakpoint.mk s.nextBpId a BpKind.hardware [] true 0 :: s.bps,
          nextBpId := s.nextBpId + 1 }, ?_, ?_⟩
      · simp [add_breakpoint, hg, hfresh, Nat.not_le.mpr hroom]
      · simp
    · refine ⟨{ s with
          bps := Breakpoint.mk s.nextBpId a BpKind.watchpoint [] true 0 :: s.bps,
          nextBpId := s.nextBpId + 1 }, ?_, ?_⟩
      · simp [add_breakpoint, hg, hfresh, Nat.not_le.mpr hroom]
      · simp

/-- Witness for C7: with all four sample debug-register slots occupied, the
next watchpoint request fails with InvalidArgument. -/
theorem hw_slots_exhausted_witness :
    add_breakpoint hwFullState BpKind.watchpoint 50
      = Except.error DebuggerError.InvalidArgument :=
  (hw_slots_exhausted hwFullState BpKind.watchpoint 50 rfl rfl (Or.inr rfl)
    rfl).1 (by decide)

/-- C3: a second add_breakpoint request at an address that already has a
breakpoint with id i returns the existing id i and installs nothing new;
and starting from an empty table, the number of installed breakpoints (the
removals required to clear them) equals the number of adds minus the
idempotent duplicates. -/
theorem add_breakpoint_idempotent_count :
    (∀ (s : DState) (k : BpKind) (a : Nat) (b : Breakpoint),
        s.procState = ProcState.Stopped → s.terminated = false →
        findBpAt s.bps a = some b →
        add_breakpoint s k a = Except.ok (b.bpId, s)) ∧
    (∀ (s : DState) (addrs : List Nat),
        s.procState = ProcState.Stopped → s.terminated = false →
        s.bps = [] →
        (addAllSoftware s addrs).bps.length
          = addrs.length - (addrs.length - addrs.dedup.length)) := by
  constructor
  · intro s k a b hst ht hf
    have hg := stoppedGuard_none_of ht hst
    simp [add_breakpoint, hg, hf]
  · intro s addrs hst ht hb
    obtain ⟨p1, p2, p3, p4⟩ := addAll_effect addrs s hst ht
    have hnd : (addrOfBps (addAllSoftware s addrs).bps).Nodup := by
      apply p4
      rw [hb]
      simp [addrOfBps]
    have hcard : (addrOfBps (addAllSoftware s addrs).bps).toFinset.card
        = addrs.toFinset.card := by
      rw [p3, hb]
      simp [addrOfBps]
    have hlen1 : (addrOfBps (addAllSoftware s addrs).bps).length
        = (addAllSoftware s addrs).bps.length := by
      simp [addrOfBps]
    have h2 := List.toFinset_card_of_nodup hnd
    have h3 : addrs.toFinset.card = addrs.dedup.length :=
      List.card_toFinset addrs
    have h4 : addrs.dedup.length ≤ addrs.length :=
      (List.dedup_sublist addrs).length_le
    omega

/-- Witness for C3: adding at addresses 5, 5, 7 from the sample target
installs two breakpoints — three adds minus one idempotent duplicate. -/
theorem add_breakpoint_idempotent_count_witness :
    (addAllSoftware state0 [5, 5, 7]).bps.length
      = [5, 5, 7].length - ([5, 5, 7].length - ([5, 5, 7] : List Nat).dedup.length) :=
  add_breakpoint_idempotent_count.2 state0 [5, 5, 7] rfl rfl rfl

/-- C8: the event channel publishes at least one TargetStopped event per
distinct OS-level stop (exactly one, hence at least once), and the
published sequence is strictly ordered per process: in every published
prefix the TargetResumed events never outnumber the TargetStopped events,
so a resume is never observed before the stop that preceded it. -/
theorem event_channel_ordering (acts : List WaitAction) :
    countStops (waitLoopRun initChannel acts).published = countOsStops acts ∧
    ∀ n, countResumes ((waitLoopRun initChannel acts).published.take n)
      ≤ countStops ((waitLoopRun initChannel acts).published.take n) := by
  have h0 : chanInv initChannel := by
    refine ⟨fun _ => ?_, fun hfalse => ?_, fun n => ?_⟩
    · simp [initChannel, countStops, countResumes]
    · simp [initChannel] at hfalse
    · simp [initChannel, countStops, countResumes]
  have hinv := chanInv_run acts initChannel h0
  refine ⟨?_, hinv.2.2⟩
  have hrun := countStops_run acts initChannel
  simpa [initChannel, countStops] using hrun

/-- C9: shouldShowIntro returns true iff no ferros_intro_last_shown entry
is stored or the current time minus the stored timestamp strictly exceeds
86,400,000 ms; at exactly 24 hours elapsed it returns false; and the
timestamp is rewritten only by the final timeline step, i.e. only when the
intro animation runs to completion. -/
theorem shouldShowIntro_spec (st : Option Int) (now t : Int) :
    (shouldShowIntro st now = true ↔
      st = none ∨ ∃ u, st = some u ∧ now - u > 86400000) ∧
    shouldShowIntro (some t) (t + 86400000) = false ∧
    (∀ k, k < introTimeline.length →
      runIntroSteps now st (introTimeline.take k) = st) ∧
    runIntroSteps now st introTimeline = some now := by
  have hval : (24 * 60 * 60 * 1000 : Int) = 86400000 := by norm_num
  refine ⟨?_, ?_, ?_, rfl⟩
  · cases st with
    | none => simp [shouldShowIntro]
    | some u =>
      simp only [shouldShowIntro, oneDayInMs, hval, decide_eq_true_eq]
      constructor
      · intro h
        exact Or.inr ⟨u, rfl, h⟩
      · rintro (h | ⟨u2, hu, hgt⟩)
        · simp at h
        · injection hu with h2
          subst h2
          exact hgt
  · simp only [shouldShowIntro, oneDayInMs, hval, decide_eq_false_iff_not]
    omega
  · intro k hk
    have hlen : introTimeline.length = 10 := rfl
    rw [hlen] at hk
    interval_cases k <;> rfl

/-- Witness for C9: at exactly 24 hours elapsed the intro is not shown, and
a full timeline run stores the current timestamp. -/
theorem shouldShowIntro_spec_witness :
    shouldShowIntro (some 0) (0 + 86400000) = false ∧
    runIntroSteps 42 none introTimeline = some 42 :=
  ⟨(shouldShowIntro_spec (some 0) 0 0).2.1,
   (shouldShowIntro_spec none 42 0).2.2.2⟩

/-- C10: every invocation of typeNextLine renders codeLines[i] for some
index i with i < 6 — the counter is reset to 0 and the display cleared
whenever it has reached the list length, so the cycle repeats — and the
breakpoint indicator is prepended to the rendered line iff its index
equals 2, the vec.push(42) line. -/
theorem typeNextLine_renders (st : SimState) :
    ∃ i, i < codeLines.length ∧
      (typeNextLine st).display.getLast?
        = some (RenderedLine.mk (i == 2)
            ((codeLines.getD i (SimLine.mk "" 0)).text)) ∧
      (((i == 2) = true) ↔
        (codeLines.getD i (SimLine.mk "" 0)).text = "    vec.push(42);") ∧
      (codeLines.length ≤ st.currentLine →
        i = 0 ∧
        (typeNextLine st).display
          = [RenderedLine.mk false ((codeLines.getD 0 (SimLine.mk "" 0)).text)] ∧
        (typeNextLine st).currentLine = 1) := by
  obtain ⟨n, d⟩ := st
  by_cases h : codeLines.length ≤ n
  · refine ⟨0, by decide, ?_, by decide, fun _ => ⟨rfl, ?_, ?_⟩⟩
    · simp [typeNextLine, h, getLast_snoc]
    · simp [typeNextLine, h]
    · simp [typeNextLine, h]
  · have hn : n < codeLines.length := Nat.lt_of_not_le h
    refine ⟨n, hn, ?_, ?_, fun habs => absurd habs h⟩
    · simp [typeNextLine, h, getLast_snoc]
    · have hn6 : n < 6 := by
        have hlen : codeLines.length = 6 := rfl
        omega
      interval_cases n <;> decide

/-- Witness for C10: the invocation from the state whose counter has
reached the list length renders line 0 without the breakpoint indicator
into a cleared display. -/
theorem typeNextLine_renders_witness :
    ∃ i, i < codeLines.length ∧
      (typeNextLine (SimState.mk 6 [])).display.getLast?
        = some (RenderedLine.mk (i == 2)
            ((codeLines.getD i (SimLine.mk "" 0)).text)) ∧
      (((i == 2) = true) ↔
        (codeLines.getD i (SimLine.mk "" 0)).text = "    vec.push(42);") ∧
      (codeLines.length ≤ (SimState.mk 6 []).currentLine →
        i = 0 ∧
        (typeNextLine (SimState.mk 6 [])).display
          = [RenderedLine.mk false ((codeLines.getD 0 (SimLine.mk "" 0)).text)] ∧
        (typeNextLine (SimState.mk 6 [])).currentLine = 1) :=
  typeNextLine_renders (SimState.mk 6 [])

end Ferros
